import Mathlib

/-!
Verification of the checkpointed pipeline engine of mcp-apple-notes:
the checkpoint manager (src/utils/checkpoint.ts), its JSON persistence
layer (src/utils/json.ts, src/config.ts) and the rate-limited retrying
external-call wrapper (src/services/openai.ts).

The TypeScript is embedded shallowly: the in-memory checkpoint document
becomes a Lean structure, each mutating method becomes a pure function
from document to document that also reports the file-system effects the
method performs, timestamps (`new Date().toISOString()`, `Date.now()`)
are passed in as explicit parameters, and the retry / rate-limit logic
becomes pure functions that additionally record the trace of attempts,
sleeps and rate-limit checks.
-/

namespace MCPNotes

/-- config.ts: `CHECKPOINT_CONFIG.FULL_PATH = path.join(BASE_DIR, 'checkpoint.json')`
with `BASE_DIR = './data'`. -/
def CHECKPOINT_FULL_PATH : String := "data/checkpoint.json"

/-- A file-system effect performed by the JSON persistence layer. -/
inductive FsEvent where
  | write (path : String)
  | rename (src dst : String)
deriving DecidableEq, Repr

/-- json.ts `writeJSON`: serialises and calls `writeFile(filePath, ...)`
directly at the target path — a single in-place write. -/
def writeJSON_fs (filePath : String) : List FsEvent :=
  [FsEvent.write filePath]

/-- json.ts `writeJSONSafe`: writes to `filePath + '.tmp'` first, then
renames the temporary file onto the target. -/
def writeJSONSafe_fs (filePath : String) : List FsEvent :=
  [FsEvent.write (filePath ++ ".tmp"), FsEvent.rename (filePath ++ ".tmp") filePath]

/-- checkpoint.ts `ProcessingStage`. -/
inductive ProcessingStage where
  | RAW_EXPORT
  | ENRICHMENT
  | CLUSTERING
  | FINAL_MERGE
deriving DecidableEq, Repr

/-- checkpoint.ts `StageStatus`. -/
inductive StageStatus where
  | NOT_STARTED
  | IN_PROGRESS
  | COMPLETED
  | FAILED
deriving DecidableEq, Repr

/-- checkpoint.ts `StageProgress`. -/
structure StageProgress where
  status : StageStatus
  processedNoteIds : List String
  failedNoteIds : List String
  startTime : Option String := none
  completionTime : Option String := none
  lastProcessedTime : Option String := none
  error : Option String := none
deriving DecidableEq, Repr

/-- checkpoint.ts `CheckpointMetadata` (the persisted document). -/
structure CheckpointMetadata where
  version : String
  totalNotes : Nat
  stages : ProcessingStage → StageProgress
  createdAt : String
  lastUpdated : String

/-- The fresh per-stage record used by `initialize` when no checkpoint
file exists: `{ status: NOT_STARTED, processedNoteIds: [], failedNoteIds: [] }`. -/
def freshStageProgress : StageProgress :=
  { status := StageStatus.NOT_STARTED, processedNoteIds := [], failedNoteIds := [] }

/-- The document built by `CheckpointManager.initialize(totalNotes)` on its
create-new branch: version 1.0.0, every stage fresh, both timestamps `now`. -/
def initMetadata (totalNotes : Nat) (now : String) : CheckpointMetadata :=
  { version := "1.0.0"
    totalNotes := totalNotes
    stages := fun _ => freshStageProgress
    createdAt := now
    lastUpdated := now }

/-- Replace the record of one stage (`this.metadata.stages[stage] = ...`). -/
def setStage (m : CheckpointMetadata) (s : ProcessingStage) (sp : StageProgress) :
    CheckpointMetadata :=
  { m with stages := fun t => if t = s then sp else m.stages t }

/-- `CheckpointManager.saveMetadata`: stamps `lastUpdated` and persists the
whole document through json.ts `writeJSON` at `CHECKPOINT_CONFIG.FULL_PATH`
(the call site passes the checkpoint path and the serialised document to
`writeJSON`, i.e. a direct in-place write, not `writeJSONSafe`). -/
def saveMetadata (m : CheckpointMetadata) (now : String) :
    CheckpointMetadata × List FsEvent :=
  ({ m with lastUpdated := now }, writeJSON_fs CHECKPOINT_FULL_PATH)

/-- `CheckpointManager.startStage`: returns without touching anything when the
stage is already `IN_PROGRESS`; otherwise sets `IN_PROGRESS`, records
`startTime`, clears `error`, and persists. -/
def startStage (m : CheckpointMetadata) (s : ProcessingStage) (now : String) :
    CheckpointMetadata × List FsEvent :=
  let sp := m.stages s
  if sp.status = StageStatus.IN_PROGRESS then
    (m, [])
  else
    saveMetadata
      (setStage m s { sp with
        status := StageStatus.IN_PROGRESS, startTime := some now, error := none }) now

/-- `CheckpointManager.updateNoteProgress`: pushes `noteId` onto
`processedNoteIds` (success) or `failedNoteIds` (failure) unless that same
list already contains it, records `lastProcessedTime`, persists. -/
def updateNoteProgress (m : CheckpointMetadata) (s : ProcessingStage)
    (noteId : String) (success : Bool) (now : String) :
    CheckpointMetadata × List FsEvent :=
  let sp := m.stages s
  let sp :=
    if success then
      if sp.processedNoteIds.contains noteId then sp
      else { sp with processedNoteIds := sp.processedNoteIds ++ [noteId] }
    else
      if sp.failedNoteIds.contains noteId then sp
      else { sp with failedNoteIds := sp.failedNoteIds ++ [noteId] }
  saveMetadata (setStage m s { sp with lastProcessedTime := some now }) now

/-- `CheckpointManager.completeStage`: unconditionally sets `COMPLETED`,
records `completionTime`, persists. -/
def completeStage (m : CheckpointMetadata) (s : ProcessingStage) (now : String) :
    CheckpointMetadata × List FsEvent :=
  saveMetadata
    (setStage m s { m.stages s with
      status := StageStatus.COMPLETED, completionTime := some now }) now

/-- `CheckpointManager.failStage`: unconditionally sets `FAILED`, stores the
error message, persists. -/
def failStage (m : CheckpointMetadata) (s : ProcessingStage) (error : String)
    (now : String) : CheckpointMetadata × List FsEvent :=
  saveMetadata
    (setStage m s { m.stages s with
      status := StageStatus.FAILED, error := some error }) now

/-- The loop body test of `getNextNoteForStage`:
`!processedNoteIds.includes(noteId) && !failedNoteIds.includes(noteId)`. -/
def isPending (sp : StageProgress) (noteId : String) : Bool :=
  !(sp.processedNoteIds.contains noteId) && !(sp.failedNoteIds.contains noteId)

/-- The `for (let i = 0; i < totalNotes; i++)` scan of `getNextNoteForStage`,
at loop index `i` with `remaining` iterations left (`remaining = total - i`;
the loop guard `i < total` is exactly `remaining > 0` on every reachable
iteration). Recursion is structural on `remaining` so the scan evaluates by
kernel reduction. -/
def findPendingGo (sp : StageProgress) : Nat → Nat → Option String
  | _, 0 => none
  | i, remaining + 1 =>
    if isPending sp (toString i) then some (toString i)
    else findPendingGo sp (i + 1) remaining

/-- `CheckpointManager.getNextNoteForStage`. -/
def getNextNoteForStage (m : CheckpointMetadata) (s : ProcessingStage) :
    Option String :=
  findPendingGo (m.stages s) 0 m.totalNotes

/-- `CheckpointManager.getStageProgressPercentage`:
`processedNoteIds.length / totalNotes * 100`. -/
def getStageProgressPercentage (m : CheckpointMetadata) (s : ProcessingStage) : ℚ :=
  ((m.stages s).processedNoteIds.length : ℚ) / (m.totalNotes : ℚ) * 100

/-- A mutating engine operation after initialization (the timestamp each
call would read from the clock is carried in the constructor). -/
inductive Op where
  | start (s : ProcessingStage) (now : String)
  | update (s : ProcessingStage) (noteId : String) (success : Bool) (now : String)
  | complete (s : ProcessingStage) (now : String)
  | stageFail (s : ProcessingStage) (error : String) (now : String)
deriving DecidableEq, Repr

/-- Apply one operation to the in-memory document (dropping the fs trace). -/
def applyOp (m : CheckpointMetadata) (op : Op) : CheckpointMetadata :=
  match op with
  | Op.start s now => (startStage m s now).1
  | Op.update s id b now => (updateNoteProgress m s id b now).1
  | Op.complete s now => (completeStage m s now).1
  | Op.stageFail s e now => (failStage m s e now).1

/-- Run a sequence of operations left to right. -/
def runOps (m : CheckpointMetadata) (ops : List Op) : CheckpointMetadata :=
  ops.foldl applyOp m

/-- Does `op` record `noteId` with outcome `success` at stage `s`? -/
def updatesId (op : Op) (s : ProcessingStage) (noteId : String) (success : Bool) :
    Prop :=
  match op with
  | Op.update s' id' b' _ => s' = s ∧ id' = noteId ∧ b' = success
  | _ => False

instance (op : Op) (s : ProcessingStage) (noteId : String) (success : Bool) :
    Decidable (updatesId op s noteId success) := by
  unfold updatesId
  cases op <;> infer_instance

/-- Does some operation of `ops` record `noteId` with outcome `success` at `s`? -/
def hasUpdate (ops : List Op) (s : ProcessingStage) (noteId : String)
    (success : Bool) : Bool :=
  ops.any fun op => decide (updatesId op s noteId success)

/-- Decidable side condition on a call sequence: no note id is recorded at
stage `s` with both a success and a failure outcome. -/
def singlePolarity (ops : List Op) (s : ProcessingStage) : Bool :=
  ops.all fun op =>
    match op with
    | Op.update s' id' b' _ =>
        if s' = s then !(hasUpdate ops s id' (!b')) else true
    | _ => true

/-! openai.ts: retry and rate-limit wrapper (`OpenAIService`). -/

/-- openai.ts `RETRY_CONFIG.INITIAL_RETRY_DELAY` (ms). -/
def INITIAL_RETRY_DELAY : Nat := 1000

/-- openai.ts `RETRY_CONFIG.MAX_RETRY_DELAY` (ms). -/
def MAX_RETRY_DELAY : Nat := 8000

/-- openai.ts `RETRY_CONFIG.BACKOFF_FACTOR`. -/
def BACKOFF_FACTOR : Nat := 2

/-- openai.ts `RATE_LIMITS.COMPLETIONS.TOKENS_PER_MINUTE`. -/
def COMPLETIONS_TOKENS_PER_MINUTE : Nat := 90000

/-- Outcome of a retried operation together with the trace of attempt
numbers issued (one entry per invocation of the wrapped operation, in
order) and of the backoff delays slept between attempts. -/
structure RetryTrace (E A : Type) where
  result : Except E A
  attempts : List Nat
  delays : List Nat
deriving Repr

/-- openai.ts `retryWithExponentialBackoff` at recursion depth `retryCount`
with `remaining = maxRetries - retryCount` retries still allowed (the source
guard `retryCount >= maxRetries`, tested after a failure, is exactly
`remaining = 0` on every reachable recursive call): run the operation; on
failure, if no retries remain rethrow, otherwise sleep
`min(INITIAL_RETRY_DELAY * BACKOFF_FACTOR ** retryCount, MAX_RETRY_DELAY)`
and recurse. The operation is modelled as a function from the attempt
number to that attempt's outcome. Recursion is structural on `remaining`. -/
def retryGo {E A : Type} (op : Nat → Except E A) :
    Nat → Nat → RetryTrace E A
  | retryCount, remaining =>
    match op retryCount with
    | Except.ok a => ⟨Except.ok a, [retryCount], []⟩
    | Except.error e =>
      match remaining with
      | 0 => ⟨Except.error e, [retryCount], []⟩
      | r + 1 =>
        let delay := min (INITIAL_RETRY_DELAY * BACKOFF_FACTOR ^ retryCount) MAX_RETRY_DELAY
        let rest := retryGo op (retryCount + 1) r
        ⟨rest.result, retryCount :: rest.attempts, delay :: rest.delays⟩

/-- openai.ts `retryWithExponentialBackoff` as called by the public methods:
`retryCount` starts at 0 so `maxRetries` retries remain. -/
def retryWithExponentialBackoff {E A : Type} (op : Nat → Except E A)
    (maxRetries : Nat) : RetryTrace E A :=
  retryGo op 0 maxRetries

/-- Mutable rate-limiter state of `OpenAIService` for one call type:
the consumed-token counter and the time of the last request (ms). -/
structure RateLimitState where
  tokens : Nat
  lastTime : Nat
deriving DecidableEq, Repr

/-- openai.ts `handleRateLimit`, for one call type. Mirrors the body:
the local `tokenCount` is read before the one-minute reset; if
`tokenCount + cost` exceeds the limit the caller sleeps until the window
resets and the counter is zeroed; finally the counter is increased by
`cost` and `lastTime` set to `now`. Returns the new state and whether the
caller was suspended. -/
def handleRateLimit (s : RateLimitState) (now cost limit : Nat) :
    RateLimitState × Bool :=
  let tokenCount := s.tokens
  let afterMinuteReset := if now - s.lastTime ≥ 60000 then 0 else s.tokens
  if tokenCount + cost > limit then
    ({ tokens := 0 + cost, lastTime := now }, true)
  else
    ({ tokens := afterMinuteReset + cost, lastTime := now }, false)

/-- States after each call of a sequence `(now, cost)` through the limiter. -/
def rateLimitStates (s : RateLimitState) (limit : Nat) :
    List (Nat × Nat) → List RateLimitState
  | [] => []
  | (now, cost) :: rest =>
    let s' := (handleRateLimit s now cost limit).1
    s' :: rateLimitStates s' limit rest

/-- An observable step of a public `OpenAIService` call: a pass through
`handleRateLimit`, or an invocation of the wrapped operation (numbered by
its attempt index). -/
inductive CallEvent where
  | rateCheck
  | attempt (k : Nat)
deriving DecidableEq, Repr

/-- openai.ts `generateSummary` (and its siblings `extractTags`,
`generateEmbedding`, `generateSummaryAndTags`, `generateBatchEmbeddings`):
`await handleRateLimit(...)` once, then
`retryWithExponentialBackoff(operation)` where the closure passed to the
retry loop issues the external call only — the event trace of one public
call. -/
def generateSummaryEvents {E A : Type} (op : Nat → Except E A)
    (maxRetries : Nat) : List CallEvent :=
  CallEvent.rateCheck ::
    (retryWithExponentialBackoff op maxRetries).attempts.map CallEvent.attempt

/-! Wrapped operations of `CheckpointManager`: the class holds
`metadata: CheckpointMetadata | null` and every public method other than
`initialize` begins with `if (!this.metadata) throw new Error(...)`. -/

/-- Result of one wrapped method call: the returned value or thrown error,
the manager state afterwards, and the file-system effects performed. -/
structure OpOut (α : Type) where
  result : Except String α
  metadata : Option CheckpointMetadata
  events : List FsEvent

/-- `CheckpointManager.startStage` including the null-metadata guard. -/
def startStageM (st : Option CheckpointMetadata) (s : ProcessingStage)
    (now : String) : OpOut Unit :=
  match st with
  | none => ⟨Except.error "Checkpoint metadata not initialized", none, []⟩
  | some m =>
    let r := startStage m s now
    ⟨Except.ok (), some r.1, r.2⟩

/-- `CheckpointManager.updateNoteProgress` including the null-metadata guard. -/
def updateNoteProgressM (st : Option CheckpointMetadata) (s : ProcessingStage)
    (noteId : String) (success : Bool) (now : String) : OpOut Unit :=
  match st with
  | none => ⟨Except.error "Checkpoint metadata not initialized", none, []⟩
  | some m =>
    let r := updateNoteProgress m s noteId success now
    ⟨Except.ok (), some r.1, r.2⟩

/-- `CheckpointManager.completeStage` including the null-metadata guard. -/
def completeStageM (st : Option CheckpointMetadata) (s : ProcessingStage)
    (now : String) : OpOut Unit :=
  match st with
  | none => ⟨Except.error "Checkpoint metadata not initialized", none, []⟩
  | some m =>
    let r := completeStage m s now
    ⟨Except.ok (), some r.1, r.2⟩

/-- `CheckpointManager.failStage` including the null-metadata guard. -/
def failStageM (st : Option CheckpointMetadata) (s : ProcessingStage)
    (error : String) (now : String) : OpOut Unit :=
  match st with
  | none => ⟨Except.error "Checkpoint metadata not initialized", none, []⟩
  | some m =>
    let r := failStage m s error now
    ⟨Except.ok (), some r.1, r.2⟩

/-- `CheckpointManager.getStageProgress` including the null-metadata guard. -/
def getStageProgressM (st : Option CheckpointMetadata) (s : ProcessingStage) :
    OpOut StageProgress :=
  match st with
  | none => ⟨Except.error "Checkpoint metadata not initialized", none, []⟩
  | some m => ⟨Except.ok (m.stages s), st, []⟩

/-- `CheckpointManager.getStageProgressPercentage` including the guard. -/
def getStageProgressPercentageM (st : Option CheckpointMetadata)
    (s : ProcessingStage) : OpOut ℚ :=
  match st with
  | none => ⟨Except.error "Checkpoint metadata not initialized", none, []⟩
  | some m => ⟨Except.ok (getStageProgressPercentage m s), st, []⟩

/-- `CheckpointManager.getNextNoteForStage` including the guard. -/
def getNextNoteForStageM (st : Option CheckpointMetadata)
    (s : ProcessingStage) : OpOut (Option String) :=
  match st with
  | none => ⟨Except.error "Checkpoint metadata not initialized", none, []⟩
  | some m => ⟨Except.ok (getNextNoteForStage m s), st, []⟩

/-- `CheckpointManager.getMetadata` including the guard. -/
def getMetadataM (st : Option CheckpointMetadata) : OpOut CheckpointMetadata :=
  match st with
  | none => ⟨Except.error "Checkpoint metadata not initialized", none, []⟩
  | some m => ⟨Except.ok m, st, []⟩

/-- The §8 scenario state: `initialize(3)`, `startStage(RAW_EXPORT)`,
`updateNoteProgress(RAW_EXPORT, "0", true)`,
`updateNoteProgress(RAW_EXPORT, "1", false)`. -/
def scenarioMetadata : CheckpointMetadata :=
  runOps (initMetadata 3 "t0")
    [Op.start ProcessingStage.RAW_EXPORT "t1",
     Op.update ProcessingStage.RAW_EXPORT "0" true "t2",
     Op.update ProcessingStage.RAW_EXPORT "1" false "t3"]

/-! Helper lemmas. -/

theorem findPendingGo_eq_none (sp : StageProgress) :
    ∀ (remaining i : Nat),
      findPendingGo sp i remaining = none ↔
        ∀ k, i ≤ k → k < i + remaining → isPending sp (toString k) = false := by
  intro remaining
  induction remaining with
  | zero =>
    intro i
    simp only [findPendingGo, true_iff]
    intro k h1 h2
    omega
  | succ n ih =>
    intro i
    by_cases hp : isPending sp (toString i) = true
    · simp only [findPendingGo, hp, if_true]
      constructor
      · intro h; cases h
      · intro h
        have := h i (le_refl i) (by omega)
        rw [hp] at this
        cases this
    · have hp' : isPending sp (toString i) = false := by
        cases h : isPending sp (toString i)
        · rfl
        · exact absurd h hp
      simp only [findPendingGo, hp', if_neg, Bool.false_eq_true, not_false_iff]
      rw [ih (i + 1)]
      constructor
      · intro h k h1 h2
        rcases Nat.eq_or_lt_of_le h1 with h1 | h1
        · rw [← h1]; exact hp'
        · exact h k h1 (by omega)
      · intro h k h1 h2
        exact h k (by omega) (by omega)

theorem findPendingGo_eq_some (sp : StageProgress) :
    ∀ (remaining i : Nat) (r : String),
      findPendingGo sp i remaining = some r ↔
        ∃ k, i ≤ k ∧ k < i + remaining ∧ isPending sp (toString k) = true ∧
          r = toString k ∧ ∀ j, i ≤ j → j < k → isPending sp (toString j) = false := by
  intro remaining
  induction remaining with
  | zero =>
    intro i r
    simp only [findPendingGo]
    constructor
    · intro h; cases h
    · rintro ⟨k, h1, h2, -⟩
      exact absurd h2 (by omega)
  | succ n ih =>
    intro i r
    by_cases hp : isPending sp (toString i) = true
    · simp only [findPendingGo, hp, if_true, Option.some_inj]
      constructor
      · rintro rfl
        exact ⟨i, le_refl i, by omega, hp, rfl, fun j h1 h2 => absurd h2 (by omega)⟩
      · rintro ⟨k, h1, h2, h3, rfl, h5⟩
        rcases Nat.eq_or_lt_of_le h1 with h1 | h1
        · rw [h1]
        · have := h5 i (le_refl i) h1
          rw [hp] at this
          cases this
    · have hp' : isPending sp (toString i) = false := by
        cases h : isPending sp (toString i)
        · rfl
        · exact absurd h hp
      simp only [findPendingGo, hp', if_neg, Bool.false_eq_true, not_false_iff]
      rw [ih (i + 1) r]
      constructor
      · rintro ⟨k, h1, h2, h3, h4, h5⟩
        refine ⟨k, by omega, by omega, h3, h4, ?_⟩
        intro j hj1 hj2
        rcases Nat.eq_or_lt_of_le hj1 with hj1 | hj1
        · rw [← hj1]; exact hp'
        · exact h5 j hj1 hj2
      · rintro ⟨k, h1, h2, h3, h4, h5⟩
        have hik : i ≠ k := by
          rintro rfl
          rw [h3] at hp'
          cases hp'
        refine ⟨k, by omega, by omega, h3, h4, ?_⟩
        intro j hj1 hj2
        exact h5 j (by omega) hj2

theorem hasUpdate_iff {ops : List Op} {s : ProcessingStage} {noteId : String}
    {success : Bool} :
    hasUpdate ops s noteId success = true ↔
      ∃ op ∈ ops, updatesId op s noteId success := by
  simp [hasUpdate, List.any_eq_true]

theorem applyOp_mem_processed {m : CheckpointMetadata} {op : Op}
    {s : ProcessingStage} {x : String}
    (h : x ∈ ((applyOp m op).stages s).processedNoteIds) :
    x ∈ (m.stages s).processedNoteIds ∨ updatesId op s x true := by
  cases op with
  | start s' now =>
    left
    by_cases h1 : (m.stages s').status = StageStatus.IN_PROGRESS
    · simpa [applyOp, startStage, h1] using h
    · by_cases h2 : s = s'
      · subst h2
        simpa [applyOp, startStage, h1, saveMetadata, setStage] using h
      · simpa [applyOp, startStage, h1, saveMetadata, setStage, h2] using h
  | update s' id b now =>
    by_cases h2 : s = s'
    · subst h2
      cases b with
      | true =>
        by_cases h3 : id ∈ (m.stages s).processedNoteIds
        · left
          simpa [applyOp, updateNoteProgress, h3, saveMetadata, setStage] using h
        · have h5 : x ∈ (m.stages s).processedNoteIds ++ [id] := by
            simpa [applyOp, updateNoteProgress, h3, saveMetadata, setStage] using h
          rcases List.mem_append.mp h5 with h6 | h6
          · left; exact h6
          · right
            simp only [List.mem_singleton] at h6
            exact ⟨rfl, h6.symm, rfl⟩
      | false =>
        left
        by_cases h3 : id ∈ (m.stages s).failedNoteIds
        · simpa [applyOp, updateNoteProgress, h3, saveMetadata, setStage] using h
        · simpa [applyOp, updateNoteProgress, h3, saveMetadata, setStage] using h
    · left
      cases b with
      | true =>
        by_cases h3 : id ∈ (m.stages s').processedNoteIds
        · simpa [applyOp, updateNoteProgress, h3, saveMetadata, setStage, h2] using h
        · simpa [applyOp, updateNoteProgress, h3, saveMetadata, setStage, h2] using h
      | false =>
        by_cases h3 : id ∈ (m.stages s').failedNoteIds
        · simpa [applyOp, updateNoteProgress, h3, saveMetadata, setStage, h2] using h
        · simpa [applyOp, updateNoteProgress, h3, saveMetadata, setStage, h2] using h
  | complete s' now =>
    left
    by_cases h2 : s = s'
    · subst h2
      simpa [applyOp, completeStage, saveMetadata, setStage] using h
    · simpa [applyOp, completeStage, saveMetadata, setStage, h2] using h
  | stageFail s' e now =>
    left
    by_cases h2 : s = s'
    · subst h2
      simpa [applyOp, failStage, saveMetadata, setStage] using h
    · simpa [applyOp, failStage, saveMetadata, setStage, h2] using h

theorem applyOp_mem_failed {m : CheckpointMetadata} {op : Op}
    {s : ProcessingStage} {x : String}
    (h : x ∈ ((applyOp m op).stages s).failedNoteIds) :
    x ∈ (m.stages s).failedNoteIds ∨ updatesId op s x false := by
  cases op with
  | start s' now =>
    left
    by_cases h1 : (m.stages s').status = StageStatus.IN_PROGRESS
    · simpa [applyOp, startStage, h1] using h
    · by_cases h2 : s = s'
      · subst h2
        simpa [applyOp, startStage, h1, saveMetadata, setStage] using h
      · simpa [applyOp, startStage, h1, saveMetadata, setStage, h2] using h
  | update s' id b now =>
    by_cases h2 : s = s'
    · subst h2
      cases b with
      | false =>
        by_cases h3 : id ∈ (m.stages s).failedNoteIds
        · left
          simpa [applyOp, updateNoteProgress, h3, saveMetadata, setStage] using h
        · have h5 : x ∈ (m.stages s).failedNoteIds ++ [id] := by
            simpa [applyOp, updateNoteProgress, h3, saveMetadata, setStage] using h
          rcases List.mem_append.mp h5 with h6 | h6
          · left; exact h6
          · right
            simp only [List.mem_singleton] at h6
            exact ⟨rfl, h6.symm, rfl⟩
      | true =>
        left
        by_cases h3 : id ∈ (m.stages s).processedNoteIds
        · simpa [applyOp, updateNoteProgress, h3, saveMetadata, setStage] using h
        · simpa [applyOp, updateNoteProgress, h3, saveMetadata, setStage] using h
    · left
      cases b with
      | true =>
        by_cases h3 : id ∈ (m.stages s').processedNoteIds
        · simpa [applyOp, updateNoteProgress, h3, saveMetadata, setStage, h2] using h
        · simpa [applyOp, updateNoteProgress, h3, saveMetadata, setStage, h2] using h
      | false =>
        by_cases h3 : id ∈ (m.stages s').failedNoteIds
        · simpa [applyOp, updateNoteProgress, h3, saveMetadata, setStage, h2] using h
        · simpa [applyOp, updateNoteProgress, h3, saveMetadata, setStage, h2] using h
  | complete s' now =>
    left
    by_cases h2 : s = s'
    · subst h2
      simpa [applyOp, completeStage, saveMetadata, setStage] using h
    · simpa [applyOp, completeStage, saveMetadata, setStage, h2] using h
  | stageFail s' e now =>
    left
    by_cases h2 : s = s'
    · subst h2
      simpa [applyOp, failStage, saveMetadata, setStage] using h
    · simpa [applyOp, failStage, saveMetadata, setStage, h2] using h

theorem runOps_mem_processed {ops : List Op} {m : CheckpointMetadata}
    {s : ProcessingStage} {x : String}
    (h : x ∈ ((runOps m ops).stages s).processedNoteIds) :
    x ∈ (m.stages s).processedNoteIds ∨ hasUpdate ops s x true = true := by
  induction ops generalizing m with
  | nil => exact Or.inl h
  | cons op rest ih =>
    rcases ih (m := applyOp m op) h with h1 | h1
    · rcases applyOp_mem_processed h1 with h2 | h2
      · exact Or.inl h2
      · exact Or.inr (hasUpdate_iff.mpr ⟨op, List.mem_cons_self op rest, h2⟩)
    · obtain ⟨o, ho, hu⟩ := hasUpdate_iff.mp h1
      exact Or.inr (hasUpdate_iff.mpr ⟨o, List.mem_cons_of_mem op ho, hu⟩)

theorem runOps_mem_failed {ops : List Op} {m : CheckpointMetadata}
    {s : ProcessingStage} {x : String}
    (h : x ∈ ((runOps m ops).stages s).failedNoteIds) :
    x ∈ (m.stages s).failedNoteIds ∨ hasUpdate ops s x false = true := by
  induction ops generalizing m with
  | nil => exact Or.inl h
  | cons op rest ih =>
    rcases ih (m := applyOp m op) h with h1 | h1
    · rcases applyOp_mem_failed h1 with h2 | h2
      · exact Or.inl h2
      · exact Or.inr (hasUpdate_iff.mpr ⟨op, List.mem_cons_self op rest, h2⟩)
    · obtain ⟨o, ho, hu⟩ := hasUpdate_iff.mp h1
      exact Or.inr (hasUpdate_iff.mpr ⟨o, List.mem_cons_of_mem op ho, hu⟩)

theorem singlePolarity_spec {ops : List Op} {s : ProcessingStage}
    (h : singlePolarity ops s = true) (noteId : String) :
    ¬(hasUpdate ops s noteId true = true ∧ hasUpdate ops s noteId false = true) := by
  rintro ⟨ht, hf⟩
  obtain ⟨op, hop, hu⟩ := hasUpdate_iff.mp ht
  unfold singlePolarity at h
  rw [List.all_eq_true] at h
  have h2 := h op hop
  cases op with
  | update s' id' b' now' =>
    obtain ⟨rfl, rfl, rfl⟩ := hu
    simp only [if_pos rfl, if_true, Bool.not_true, Bool.not_eq_true'] at h2
    rw [h2] at hf
    cases hf
  | start s' now' => exact hu.elim
  | complete s' now' => exact hu.elim
  | stageFail s' e' now' => exact hu.elim

theorem retryGo_ok {E A : Type} {op : Nat → Except E A} {k : Nat} {a : A}
    (hop : op k = Except.ok a) (remaining : Nat) :
    retryGo op k remaining = ⟨Except.ok a, [k], []⟩ := by
  rw [retryGo, hop]

theorem retryGo_error_zero {E A : Type} {op : Nat → Except E A} {k : Nat} {e : E}
    (hop : op k = Except.error e) :
    retryGo op k 0 = ⟨Except.error e, [k], []⟩ := by
  rw [retryGo, hop]

theorem retryGo_error_succ {E A : Type} {op : Nat → Except E A} {k : Nat} {e : E}
    (hop : op k = Except.error e) (r : Nat) :
    retryGo op k (r + 1) =
      ⟨(retryGo op (k + 1) r).result,
       k :: (retryGo op (k + 1) r).attempts,
       min (INITIAL_RETRY_DELAY * BACKOFF_FACTOR ^ k) MAX_RETRY_DELAY
         :: (retryGo op (k + 1) r).delays⟩ := by
  rw [retryGo, hop]

theorem retryGo_delays_getD {E A : Type} (op : Nat → Except E A) :
    ∀ (remaining k j : Nat),
      j < (retryGo op k remaining).delays.length →
      (retryGo op k remaining).delays.getD j 0
        = min (INITIAL_RETRY_DELAY * BACKOFF_FACTOR ^ (k + j)) MAX_RETRY_DELAY := by
  intro remaining
  induction remaining with
  | zero =>
    intro k j hj
    cases hop : op k with
    | ok a => rw [retryGo_ok hop] at hj; simp at hj
    | error e => rw [retryGo_error_zero hop] at hj; simp at hj
  | succ r ih =>
    intro k j hj
    cases hop : op k with
    | ok a => rw [retryGo_ok hop] at hj; simp at hj
    | error e =>
      rw [retryGo_error_succ hop] at hj ⊢
      cases j with
      | zero => simp
      | succ j' =>
        simp only [List.length_cons, Nat.add_lt_add_iff_right] at hj
        simp only [List.getD_cons_succ]
        have harith : k + (j' + 1) = (k + 1) + j' := by omega
        rw [harith]
        exact ih (k + 1) j' hj

theorem retryGo_all_fail {E A : Type} (op : Nat → Except E A)
    (h : ∀ k (a : A), op k ≠ Except.ok a) :
    ∀ (remaining k : Nat),
      (retryGo op k remaining).attempts = List.range' k (remaining + 1)
      ∧ (retryGo op k remaining).result = op (k + remaining) := by
  intro remaining
  induction remaining with
  | zero =>
    intro k
    cases hop : op k with
    | ok a => exact absurd hop (h k a)
    | error e =>
      rw [retryGo_error_zero hop]
      refine ⟨by simp [List.range'], ?_⟩
      simp [hop]
  | succ r ih =>
    intro k
    cases hop : op k with
    | ok a => exact absurd hop (h k a)
    | error e =>
      rw [retryGo_error_succ hop]
      refine ⟨?_, ?_⟩
      · show k :: (retryGo op (k + 1) r).attempts = List.range' k (r + 1 + 1)
        rw [(ih (k + 1)).1]
        simp [List.range']
      · show (retryGo op (k + 1) r).result = op (k + (r + 1))
        rw [(ih (k + 1)).2]
        congr 1
        omega

theorem handleRateLimit_tokens_le {s : RateLimitState} {now cost limit : Nat}
    (h : cost ≤ limit) :
    (handleRateLimit s now cost limit).1.tokens ≤ limit := by
  unfold handleRateLimit
  by_cases hc : s.tokens + cost > limit
  · simp only [hc, if_true]
    omega
  · simp only [hc, if_false]
    by_cases ht : now - s.lastTime ≥ 60000
    · simp only [ht, if_true]
      omega
    · simp only [ht, if_false]
      omega

/-! Claim theorems. -/

/-- C1 counterexample: `updateNoteProgress(RAW_EXPORT, "0", false)` followed by
`updateNoteProgress(RAW_EXPORT, "0", true)` on a freshly initialized checkpoint
leaves `"0"` in both `failedNoteIds` and `processedNoteIds` — each branch of
`updateNoteProgress` consults only its own target list, so the two sets do not
remain disjoint under this sequence. -/
theorem updateNoteProgress_both_sets_cex :
    "0" ∈ ((runOps (initMetadata 1 "t0")
      [Op.update ProcessingStage.RAW_EXPORT "0" false "t1",
       Op.update ProcessingStage.RAW_EXPORT "0" true "t2"]).stages
        ProcessingStage.RAW_EXPORT).processedNoteIds
    ∧ "0" ∈ ((runOps (initMetadata 1 "t0")
      [Op.update ProcessingStage.RAW_EXPORT "0" false "t1",
       Op.update ProcessingStage.RAW_EXPORT "0" true "t2"]).stages
        ProcessingStage.RAW_EXPORT).failedNoteIds := by
  exact ⟨by decide, by decide⟩

/-- C1 (amended): for every stage and every sequence of operations after
initialize in which no note id is recorded at that stage with both a success
and a failure outcome, `processedNoteIds` and `failedNoteIds` of that stage
remain disjoint. (The original claim also covered mixed-polarity sequences
such as `updateNoteProgress(stage, id, false)` then
`updateNoteProgress(stage, id, true)`, on which disjointness fails.) -/
theorem processed_failed_disjoint (ops : List Op) (n : Nat) (t : String)
    (s : ProcessingStage) (hsp : singlePolarity ops s = true) :
    ∀ x ∈ ((runOps (initMetadata n t) ops).stages s).processedNoteIds,
      x ∉ ((runOps (initMetadata n t) ops).stages s).failedNoteIds := by
  intro x hx hx'
  rcases runOps_mem_processed hx with h | h
  · simp [initMetadata, freshStageProgress] at h
  · rcases runOps_mem_failed hx' with h' | h'
    · simp [initMetadata, freshStageProgress] at h'
    · exact singlePolarity_spec hsp x ⟨h, h'⟩

/-- Witness for C1 (amended) at a concrete single-polarity sequence. -/
theorem processed_failed_disjoint_witness :
    "0" ∉ ((runOps (initMetadata 2 "t0")
      [Op.start ProcessingStage.RAW_EXPORT "t1",
       Op.update ProcessingStage.RAW_EXPORT "0" true "t2",
       Op.update ProcessingStage.RAW_EXPORT "1" false "t3"]).stages
        ProcessingStage.RAW_EXPORT).failedNoteIds :=
  processed_failed_disjoint
    [Op.start ProcessingStage.RAW_EXPORT "t1",
     Op.update ProcessingStage.RAW_EXPORT "0" true "t2",
     Op.update ProcessingStage.RAW_EXPORT "1" false "t3"]
    2 "t0" ProcessingStage.RAW_EXPORT (by decide) "0" (by decide)

/-- C2: `getNextNoteForStage` returns `some r` exactly when `r` is the decimal
string of the least index `i < totalNotes` whose id is in neither
`processedNoteIds` nor `failedNoteIds` of the stage, and returns `none`
exactly when every index below `totalNotes` is settled; in the §8 scenario
(`totalNotes = 3`, `"0"` processed, `"1"` failed) it returns `"2"`. -/
theorem getNextNoteForStage_spec :
    (∀ (m : CheckpointMetadata) (s : ProcessingStage),
      (getNextNoteForStage m s = none ↔
        ∀ i, i < m.totalNotes → isPending (m.stages s) (toString i) = false)
      ∧ (∀ r, getNextNoteForStage m s = some r ↔
          ∃ i, i < m.totalNotes ∧ isPending (m.stages s) (toString i) = true ∧
            r = toString i ∧
            ∀ j, j < i → isPending (m.stages s) (toString j) = false))
    ∧ getNextNoteForStage scenarioMetadata ProcessingStage.RAW_EXPORT = some "2" := by
  refine ⟨fun m s => ⟨?_, ?_⟩, by decide⟩
  · rw [getNextNoteForStage, findPendingGo_eq_none]
    constructor
    · intro h i hi
      exact h i (Nat.zero_le i) (by omega)
    · intro h k _ hk
      exact h k (by omega)
  · intro r
    rw [getNextNoteForStage, findPendingGo_eq_some]
    constructor
    · rintro ⟨k, -, hk2, hk3, hk4, hk5⟩
      exact ⟨k, by omega, hk3, hk4, fun j hj => hk5 j (Nat.zero_le j) hj⟩
    · rintro ⟨i, hi1, hi2, hi3, hi4⟩
      exact ⟨i, Nat.zero_le i, by omega, hi2, hi3, fun j _ hj => hi4 j hj⟩

/-- C3: the persist path is NOT atomic. `CheckpointManager.saveMetadata` —
invoked by every mutating operation — persists through json.ts `writeJSON`,
which serialises and calls `writeFile` directly at the checkpoint path: its
file-system trace is a single in-place write of the durable file, performs no
rename, and differs from the write-temp-then-rename trace of `writeJSONSafe`
(which exists in json.ts but is not used for the checkpoint document). -/
theorem saveMetadata_writes_in_place :
    ∀ (m : CheckpointMetadata) (s : ProcessingStage) (noteId err now : String)
      (success : Bool),
      (saveMetadata m now).2 = [FsEvent.write CHECKPOINT_FULL_PATH]
      ∧ (updateNoteProgress m s noteId success now).2
          = [FsEvent.write CHECKPOINT_FULL_PATH]
      ∧ (completeStage m s now).2 = [FsEvent.write CHECKPOINT_FULL_PATH]
      ∧ (failStage m s err now).2 = [FsEvent.write CHECKPOINT_FULL_PATH]
      ∧ (∀ e ∈ (saveMetadata m now).2, ∀ src dst, e ≠ FsEvent.rename src dst)
      ∧ (saveMetadata m now).2 ≠ writeJSONSafe_fs CHECKPOINT_FULL_PATH
      ∧ writeJSONSafe_fs CHECKPOINT_FULL_PATH
          = [FsEvent.write (CHECKPOINT_FULL_PATH ++ ".tmp"),
             FsEvent.rename (CHECKPOINT_FULL_PATH ++ ".tmp") CHECKPOINT_FULL_PATH] := by
  intro m s noteId err now success
  refine ⟨rfl, rfl, rfl, rfl, ?_, ?_, rfl⟩
  · intro e he src dst
    simp only [saveMetadata, writeJSON_fs, List.mem_singleton] at he
    rw [he]
    intro hcontra
    cases hcontra
  · show writeJSON_fs CHECKPOINT_FULL_PATH ≠ writeJSONSafe_fs CHECKPOINT_FULL_PATH
    decide

/-- C4: the delay slept before retry attempt `k + 1` (i.e. after the failure
of attempt `k`) is exactly
`min(INITIAL_RETRY_DELAY * BACKOFF_FACTOR ^ k, MAX_RETRY_DELAY)` with no
jitter, for every operation and every `maxRetries`; with the source constants
(1000, 2, 8000) the successive delays of an always-failing operation with
five retries are exactly 1000, 2000, 4000, 8000, 8000. -/
theorem retry_delay_formula :
    (∀ (E A : Type) (op : Nat → Except E A) (maxRetries j : Nat),
      j < (retryWithExponentialBackoff op maxRetries).delays.length →
      (retryWithExponentialBackoff op maxRetries).delays.getD j 0
        = min (INITIAL_RETRY_DELAY * BACKOFF_FACTOR ^ j) MAX_RETRY_DELAY)
    ∧ (retryWithExponentialBackoff
        (fun _ => (Except.error () : Except Unit Unit)) 5).delays
        = [1000, 2000, 4000, 8000, 8000] := by
  constructor
  · intro E A op maxRetries j hj
    have := retryGo_delays_getD op maxRetries 0 j hj
    rwa [Nat.zero_add] at this
  · decide

/-- Witness for C4 at a concrete operation and delay index. -/
theorem retry_delay_formula_witness :
    (retryWithExponentialBackoff
        (fun _ => (Except.error () : Except Unit Unit)) 5).delays.getD 3 0
      = min (INITIAL_RETRY_DELAY * BACKOFF_FACTOR ^ 3) MAX_RETRY_DELAY :=
  retry_delay_formula.1 Unit Unit
    (fun _ => (Except.error () : Except Unit Unit)) 5 3 (by decide)

/-- C5: an operation that fails on every attempt is invoked exactly
`maxRetries + 1` times (attempts 0 through `maxRetries`), and the retry
wrapper then propagates the failing outcome of the final attempt to the
caller — the result is that attempt's error, never a silent success. -/
theorem retry_exhaustion :
    ∀ (E A : Type) (op : Nat → Except E A) (maxRetries : Nat),
      (∀ k (a : A), op k ≠ Except.ok a) →
      (retryWithExponentialBackoff op maxRetries).attempts.length = maxRetries + 1
      ∧ (retryWithExponentialBackoff op maxRetries).attempts
          = List.range (maxRetries + 1)
      ∧ (retryWithExponentialBackoff op maxRetries).result = op maxRetries
      ∧ ∃ e, (retryWithExponentialBackoff op maxRetries).result
          = Except.error e := by
  intro E A op maxRetries h
  have h1 := (retryGo_all_fail op h maxRetries 0).1
  have h2 := (retryGo_all_fail op h maxRetries 0).2
  rw [Nat.zero_add] at h2
  refine ⟨?_, ?_, ?_, ?_⟩
  · rw [retryWithExponentialBackoff, h1, List.length_range']
  · rw [retryWithExponentialBackoff, h1, List.range_eq_range']
  · rw [retryWithExponentialBackoff, h2]
  · rw [retryWithExponentialBackoff, h2]
    cases hop : op maxRetries with
    | ok a => exact absurd hop (h maxRetries a)
    | error e => exact ⟨e, rfl⟩

/-- Witness for C5 at a concrete always-failing operation. -/
theorem retry_exhaustion_witness :
    (retryWithExponentialBackoff
        (fun k => (Except.error k : Except Nat Unit)) 3).attempts.length = 3 + 1
    ∧ (retryWithExponentialBackoff
        (fun k => (Except.error k : Except Nat Unit)) 3).result
      = (fun k => (Except.error k : Except Nat Unit)) 3 :=
  ⟨(retry_exhaustion Nat Unit (fun k => Except.error k) 3
      (fun _ _ h => Except.noConfusion h)).1,
   (retry_exhaustion Nat Unit (fun k => Except.error k) 3
      (fun _ _ h => Except.noConfusion h)).2.2.1⟩

/-- C6 counterexample: a single call through `handleRateLimit` whose
estimated cost (90001) exceeds the per-minute completions budget (90000)
does suspend the caller and reset the window counter, yet the call then
proceeds and the consumed-token counter of the new window ends at
90001 > 90000 — so the counter does not stay within the budget when one
call's cost exceeds it. -/
theorem rateLimit_exceeds_budget_cex :
    (handleRateLimit ⟨0, 0⟩ 0 90001 COMPLETIONS_TOKENS_PER_MINUTE).2 = true
    ∧ (handleRateLimit ⟨0, 0⟩ 0 90001 COMPLETIONS_TOKENS_PER_MINUTE).1.tokens
        = 90001
    ∧ 90001 > COMPLETIONS_TOKENS_PER_MINUTE := by
  decide

/-- C6 (amended): for every sequence of calls through the rate limiter in
which each single call's estimated cost is at most the per-minute budget
`limit`, the consumed-token counter never exceeds `limit` after any call: a
call whose cost would push the window over the budget suspends the caller,
the counter is reset to zero, and only then does the call proceed. (The
original claim extended this bound to calls whose individual cost exceeds
the budget; such a call proceeds after one reset and leaves the counter at
its cost, above the budget.) -/
theorem rateLimit_budget (limit : Nat) (s0 : RateLimitState)
    (calls : List (Nat × Nat)) (h : ∀ c ∈ calls, c.2 ≤ limit) :
    ∀ st ∈ rateLimitStates s0 limit calls, st.tokens ≤ limit := by
  induction calls generalizing s0 with
  | nil => intro st hst; cases hst
  | cons c rest ih =>
    obtain ⟨now, cost⟩ := c
    intro st hst
    rw [rateLimitStates, List.mem_cons] at hst
    rcases hst with hst | hst
    · rw [hst]
      exact handleRateLimit_tokens_le (h (now, cost) (List.mem_cons_self _ _))
    · exact ih _ (fun c hc => h c (List.mem_cons_of_mem _ hc)) st hst

/-- Witness for C6 (amended) at a concrete in-budget call sequence. -/
theorem rateLimit_budget_witness :
    ((rateLimitStates ⟨0, 0⟩ 90000 [(0, 50000), (1, 50000)]).getD 1 ⟨0, 0⟩).tokens
      ≤ 90000 :=
  rateLimit_budget 90000 ⟨0, 0⟩ [(0, 50000), (1, 50000)] (by decide) _ (by decide)

/-- C7 counterexample: a public call (the `generateSummary` shape) whose
wrapped operation fails once and then succeeds produces the event trace
`[rateCheck, attempt 0, attempt 1]`: the retry attempt 1 is issued directly
after attempt 0 with no second pass through `handleRateLimit` — the trace
contains exactly one rate-limit check for two operation invocations. -/
theorem retry_bypasses_rateLimit_cex :
    generateSummaryEvents
        (fun k => if k = 0 then (Except.error () : Except Unit Unit)
                  else Except.ok ()) 3
      = [CallEvent.rateCheck, CallEvent.attempt 0, CallEvent.attempt 1]
    ∧ (generateSummaryEvents
        (fun k => if k = 0 then (Except.error () : Except Unit Unit)
                  else Except.ok ()) 3).count CallEvent.rateCheck = 1
    ∧ ((generateSummaryEvents
        (fun k => if k = 0 then (Except.error () : Except Unit Unit)
                  else Except.ok ()) 3).length = 3) := by
  refine ⟨by decide, by decide, by decide⟩

/-- C7 (amended): for every operation and every `maxRetries`, a public call
through the service passes through the rate-limit check exactly once, before
the first attempt; every retry attempt re-issues the operation without
re-entering rate limiting (no event after the leading `rateCheck` is a
`rateCheck`). -/
theorem rateLimit_once_per_call :
    ∀ (E A : Type) (op : Nat → Except E A) (maxRetries : Nat),
      (generateSummaryEvents op maxRetries).count CallEvent.rateCheck = 1
      ∧ ∃ l, generateSummaryEvents op maxRetries = CallEvent.rateCheck :: l
          ∧ ∀ e ∈ l, e ≠ CallEvent.rateCheck := by
  intro E A op maxRetries
  have hmem : CallEvent.rateCheck ∉
      (retryWithExponentialBackoff op maxRetries).attempts.map CallEvent.attempt := by
    intro hmem
    obtain ⟨k, -, hk⟩ := List.mem_map.mp hmem
    cases hk
  constructor
  · rw [generateSummaryEvents, List.count_cons_self,
      List.count_eq_zero.mpr hmem]
  · refine ⟨(retryWithExponentialBackoff op maxRetries).attempts.map
        CallEvent.attempt, rfl, ?_⟩
    intro e he hcontra
    rw [hcontra] at he
    exact hmem he

/-- C8: `updateNoteProgress` is idempotent per (stage, noteId, success): it
never throws on an initialized manager, records `lastProcessedTime` and
persists the document on every call, and when the note id is already in the
target list (`processedNoteIds` on success, `failedNoteIds` on failure) both
id lists are left exactly unchanged. -/
theorem updateNoteProgress_idempotent :
    ∀ (m : CheckpointMetadata) (s : ProcessingStage) (noteId : String)
      (success : Bool) (now : String),
      (updateNoteProgressM (some m) s noteId success now).result = Except.ok ()
      ∧ ((updateNoteProgress m s noteId success now).1.stages s).lastProcessedTime
          = some now
      ∧ (updateNoteProgress m s noteId success now).2
          = writeJSON_fs CHECKPOINT_FULL_PATH
      ∧ ((if success then (m.stages s).processedNoteIds
          else (m.stages s).failedNoteIds).contains noteId = true →
          ((updateNoteProgress m s noteId success now).1.stages s).processedNoteIds
            = (m.stages s).processedNoteIds
          ∧ ((updateNoteProgress m s noteId success now).1.stages s).failedNoteIds
            = (m.stages s).failedNoteIds) := by
  intro m s noteId success now
  refine ⟨rfl, ?_, rfl, ?_⟩
  · cases success with
    | true =>
      by_cases h3 : noteId ∈ (m.stages s).processedNoteIds
      · simp [updateNoteProgress, h3, saveMetadata, setStage]
      · simp [updateNoteProgress, h3, saveMetadata, setStage]
    | false =>
      by_cases h3 : noteId ∈ (m.stages s).failedNoteIds
      · simp [updateNoteProgress, h3, saveMetadata, setStage]
      · simp [updateNoteProgress, h3, saveMetadata, setStage]
  · intro hin
    cases success with
    | true =>
      rw [if_pos rfl] at hin
      have h3 : noteId ∈ (m.stages s).processedNoteIds := by
        simpa using hin
      constructor
      · simp [updateNoteProgress, h3, saveMetadata, setStage]
      · simp [updateNoteProgress, h3, saveMetadata, setStage]
    | false =>
      rw [if_neg (by simp)] at hin
      have h3 : noteId ∈ (m.stages s).failedNoteIds := by
        simpa using hin
      constructor
      · simp [updateNoteProgress, h3, saveMetadata, setStage]
      · simp [updateNoteProgress, h3, saveMetadata, setStage]

/-- Witness for C8: re-recording an id already in the target set at a
concrete checkpoint leaves both id lists unchanged. -/
theorem updateNoteProgress_idempotent_witness :
    ((updateNoteProgress
        (runOps (initMetadata 1 "t0")
          [Op.update ProcessingStage.RAW_EXPORT "0" true "t1"])
        ProcessingStage.RAW_EXPORT "0" true "t2").1.stages
          ProcessingStage.RAW_EXPORT).processedNoteIds
      = ((runOps (initMetadata 1 "t0")
          [Op.update ProcessingStage.RAW_EXPORT "0" true "t1"]).stages
            ProcessingStage.RAW_EXPORT).processedNoteIds :=
  ((updateNoteProgress_idempotent
      (runOps (initMetadata 1 "t0")
        [Op.update ProcessingStage.RAW_EXPORT "0" true "t1"])
      ProcessingStage.RAW_EXPORT "0" true "t2").2.2.2 (by decide)).1

/-- C9 counterexample: after `startStage`, `completeStage`, the stage is
`COMPLETED`; a further `startStage` then moves it back to `IN_PROGRESS` —
`startStage` short-circuits only on `IN_PROGRESS`, so `COMPLETED` is not
terminal under the engine's own operations. -/
theorem startStage_exits_completed_cex :
    ((runOps (initMetadata 1 "t0")
      [Op.start ProcessingStage.RAW_EXPORT "t1",
       Op.complete ProcessingStage.RAW_EXPORT "t2"]).stages
        ProcessingStage.RAW_EXPORT).status = StageStatus.COMPLETED
    ∧ ((runOps (initMetadata 1 "t0")
      [Op.start ProcessingStage.RAW_EXPORT "t1",
       Op.complete ProcessingStage.RAW_EXPORT "t2",
       Op.start ProcessingStage.RAW_EXPORT "t3"]).stages
        ProcessingStage.RAW_EXPORT).status = StageStatus.IN_PROGRESS := by
  exact ⟨by decide, by decide⟩

/-- C9 (amended): on a stage whose status is `COMPLETED`, `updateNoteProgress`
and `completeStage` leave the status `COMPLETED`, but `startStage` sets it
back to `IN_PROGRESS` (its guard only short-circuits on `IN_PROGRESS`) and
`failStage` sets it to `FAILED` — so `COMPLETED` is exited exactly by
`startStage` and `failStage`, contrary to the original claim that no
operation leaves `COMPLETED`. -/
theorem completed_stage_transitions :
    ∀ (m : CheckpointMetadata) (s : ProcessingStage)
      (noteId err now : String) (success : Bool),
      (m.stages s).status = StageStatus.COMPLETED →
      ((startStage m s now).1.stages s).status = StageStatus.IN_PROGRESS
      ∧ ((failStage m s err now).1.stages s).status = StageStatus.FAILED
      ∧ ((updateNoteProgress m s noteId success now).1.stages s).status
          = StageStatus.COMPLETED
      ∧ ((completeStage m s now).1.stages s).status = StageStatus.COMPLETED := by
  intro m s noteId err now success h
  refine ⟨?_, ?_, ?_, ?_⟩
  · simp [startStage, h, saveMetadata, setStage]
  · simp [failStage, saveMetadata, setStage]
  · cases success with
    | true =>
      by_cases h3 : noteId ∈ (m.stages s).processedNoteIds
      · simp [updateNoteProgress, h3, saveMetadata, setStage, h]
      · simp [updateNoteProgress, h3, saveMetadata, setStage, h]
    | false =>
      by_cases h3 : noteId ∈ (m.stages s).failedNoteIds
      · simp [updateNoteProgress, h3, saveMetadata, setStage, h]
      · simp [updateNoteProgress, h3, saveMetadata, setStage, h]
  · simp [completeStage, saveMetadata, setStage]

/-- Witness for C9 (amended) at a concrete completed stage. -/
theorem completed_stage_transitions_witness :
    (((startStage
        (completeStage (initMetadata 1 "t0") ProcessingStage.RAW_EXPORT "t1").1
        ProcessingStage.RAW_EXPORT "t2").1.stages
          ProcessingStage.RAW_EXPORT).status = StageStatus.IN_PROGRESS)
    ∧ (((updateNoteProgress
        (completeStage (initMetadata 1 "t0") ProcessingStage.RAW_EXPORT "t1").1
        ProcessingStage.RAW_EXPORT "0" true "t2").1.stages
          ProcessingStage.RAW_EXPORT).status = StageStatus.COMPLETED) :=
  ⟨(completed_stage_transitions
      (completeStage (initMetadata 1 "t0") ProcessingStage.RAW_EXPORT "t1").1
      ProcessingStage.RAW_EXPORT "0" "e" "t2" true (by decide)).1,
   (completed_stage_transitions
      (completeStage (initMetadata 1 "t0") ProcessingStage.RAW_EXPORT "t1").1
      ProcessingStage.RAW_EXPORT "0" "e" "t2" true (by decide)).2.2.1⟩

/-- C10: every public `CheckpointManager` operation other than initialization
(`startStage`, `updateNoteProgress`, `completeStage`, `failStage`,
`getStageProgress`, `getStageProgressPercentage`, `getNextNoteForStage`,
`getMetadata`), when invoked while the manager's metadata is still null,
throws `Checkpoint metadata not initialized`, leaves the metadata null and
performs no file-system write. -/
theorem uninitialized_ops_throw :
    ∀ (s : ProcessingStage) (noteId err now : String) (success : Bool),
      startStageM none s now
        = ⟨Except.error "Checkpoint metadata not initialized", none, []⟩
      ∧ updateNoteProgressM none s noteId success now
        = ⟨Except.error "Checkpoint metadata not initialized", none, []⟩
      ∧ completeStageM none s now
        = ⟨Except.error "Checkpoint metadata not initialized", none, []⟩
      ∧ failStageM none s err now
        = ⟨Except.error "Checkpoint metadata not initialized", none, []⟩
      ∧ getStageProgressM none s
        = ⟨Except.error "Checkpoint metadata not initialized", none, []⟩
      ∧ getStageProgressPercentageM none s
        = ⟨Except.error "Checkpoint metadata not initialized", none, []⟩
      ∧ getNextNoteForStageM none s
        = ⟨Except.error "Checkpoint metadata not initialized", none, []⟩
      ∧ getMetadataM none
        = ⟨Except.error "Checkpoint metadata not initialized", none, []⟩ := by
  intro s noteId err now success
  exact ⟨rfl, rfl, rfl, rfl, rfl, rfl, rfl, rfl⟩

end MCPNotes
